import Mathlib

/- Shallow embedding of `src/homework3.py`: a Streamlit app that transcribes an
uploaded audio file with a speech-to-text model, tags the transcript with a
named-entity-recognition model, groups the tagged spans into three buckets
(`ORGs`, `LOCs`, `PERs`), deduplicates each bucket, and renders the result.
The two model calls are external; they are modelled as function parameters.
The grouped-entities dict is modelled as an association list, which keeps the
Python dict's key set and insertion order observable. -/

/-- One tagged span as returned by the NER pipeline with
`aggregation_strategy="simple"`: the keys of the Python dict
`{entity_group, word, score, start, end}` become fields. The numeric fields
are carried by the data but never read by the code under study. -/
structure Span where
  entity_group : String
  word : String
  score : Int := 0
  start : Nat := 0
  stop : Nat := 0
  deriving DecidableEq, Repr

/-- The statement `grouped_entities[k].append(w)`: append `w` to the list
stored at key `k` of the dict, leaving the other entries unchanged. -/
def updateBucket (g : List (String × List String)) (k : String) (w : String) :
    List (String × List String) :=
  g.map (fun kv => if kv.1 = k then (kv.1, kv.2 ++ [w]) else kv)

/-- The body of the `for entity in entities` loop of `extract_entities`:
the `if / elif / elif` chain on `entity['entity_group']`. -/
def groupStep (g : List (String × List String)) (entity : Span) :
    List (String × List String) :=
  if entity.entity_group = "ORG" then updateBucket g "ORGs" entity.word
  else if entity.entity_group = "LOC" then updateBucket g "LOCs" entity.word
  else if entity.entity_group = "PER" then updateBucket g "PERs" entity.word
  else g

/-- `extract_entities` from `homework3.py`, taken from the point after the
external NER call (the tagged spans are the input): build the dict
`{"ORGs": [], "LOCs": [], "PERs": []}`, run the grouping loop, then remove
duplicates from every bucket. Python's `list(set(xs))` returns the distinct
elements of `xs` in an unspecified order; it is modelled as `List.dedup`
here, and `runExtract` below quantifies over the possible orders. -/
def extract_entities (entities : List Span) : List (String × List String) :=
  let grouped_entities := entities.foldl groupStep
    [("ORGs", []), ("LOCs", []), ("PERs", [])]
  grouped_entities.map (fun kv => (kv.1, kv.2.dedup))

/-- Read one bucket off the grouped-entities dict (`entities["ORGs"]` etc.). -/
def bucketOf (g : List (String × List String)) (k : String) : List String :=
  (g.lookup k).getD []

/-- The bucket at key `k` after grouping the span list `l`. -/
def bucket (l : List Span) (k : String) : List String :=
  bucketOf (extract_entities l) k

/-- Surface texts of the spans labelled `ORG`, in input order (the content the
grouping loop appends to `grouped_entities["ORGs"]`). -/
def orgWords (l : List Span) : List String :=
  (l.filter (fun s => s.entity_group == "ORG")).map Span.word

/-- Surface texts of the spans labelled `LOC`, in input order. -/
def locWords (l : List Span) : List String :=
  (l.filter (fun s => s.entity_group == "LOC")).map Span.word

/-- Surface texts of the spans labelled `PER`, in input order. -/
def perWords (l : List Span) : List String :=
  (l.filter (fun s => s.entity_group == "PER")).map Span.word

lemma updateBucket_three (a b c : List String) (k w : String) :
    updateBucket [("ORGs", a), ("LOCs", b), ("PERs", c)] k w =
      [(("ORGs" : String), if "ORGs" = k then a ++ [w] else a),
       (("LOCs" : String), if "LOCs" = k then b ++ [w] else b),
       (("PERs" : String), if "PERs" = k then c ++ [w] else c)] := by
  simp only [updateBucket, List.map_cons, List.map_nil]
  split <;> split <;> split <;> simp_all

lemma foldl_groupStep (l : List Span) (a b c : List String) :
    l.foldl groupStep [("ORGs", a), ("LOCs", b), ("PERs", c)] =
      [("ORGs", a ++ orgWords l), ("LOCs", b ++ locWords l),
       ("PERs", c ++ perWords l)] := by
  induction l generalizing a b c with
  | nil => simp [orgWords, locWords, perWords]
  | cons e t ih =>
    simp only [List.foldl_cons, groupStep]
    by_cases h1 : e.entity_group = "ORG"
    · rw [if_pos h1, updateBucket_three]
      simp only [if_pos rfl, if_neg (by decide : ¬("LOCs" : String) = "ORGs"),
        if_neg (by decide : ¬("PERs" : String) = "ORGs"), ih]
      simp [orgWords, locWords, perWords, h1]
    · rw [if_neg h1]
      by_cases h2 : e.entity_group = "LOC"
      · rw [if_pos h2, updateBucket_three]
        simp only [if_pos rfl, if_neg (by decide : ¬("ORGs" : String) = "LOCs"),
          if_neg (by decide : ¬("PERs" : String) = "LOCs"), ih]
        simp [orgWords, locWords, perWords, h1, h2]
      · rw [if_neg h2]
        by_cases h3 : e.entity_group = "PER"
        · rw [if_pos h3, updateBucket_three]
          simp only [if_pos rfl, if_neg (by decide : ¬("ORGs" : String) = "PERs"),
            if_neg (by decide : ¬("LOCs" : String) = "PERs"), ih]
          simp [orgWords, locWords, perWords, h1, h2, h3]
        · rw [if_neg h3, ih]
          simp [orgWords, locWords, perWords, h1, h2, h3]

/-- The grouping step, characterised: fixed keys, each bucket the deduplicated
list of surface texts of the spans carrying the matching label. -/
lemma extract_entities_eq (l : List Span) :
    extract_entities l =
      [("ORGs", (orgWords l).dedup), ("LOCs", (locWords l).dedup),
       ("PERs", (perWords l).dedup)] := by
  simp [extract_entities, foldl_groupStep]

lemma bucket_ORGs (l : List Span) : bucket l "ORGs" = (orgWords l).dedup := by
  simp [bucket, bucketOf, extract_entities_eq, List.lookup]

lemma bucket_LOCs (l : List Span) : bucket l "LOCs" = (locWords l).dedup := by
  simp [bucket, bucketOf, extract_entities_eq, List.lookup]

lemma bucket_PERs (l : List Span) : bucket l "PERs" = (perWords l).dedup := by
  simp [bucket, bucketOf, extract_entities_eq, List.lookup]

/-- C1: soundness of grouping — every surface text in the `ORGs` bucket of
the grouping result comes from some input span labelled `ORG`, and
analogously for `LOCs`/`LOC` and `PERs`/`PER`. -/
theorem c1_grouping_sound (l : List Span) :
    (∀ w ∈ bucket l "ORGs", ∃ s ∈ l, s.entity_group = "ORG" ∧ s.word = w) ∧
    (∀ w ∈ bucket l "LOCs", ∃ s ∈ l, s.entity_group = "LOC" ∧ s.word = w) ∧
    (∀ w ∈ bucket l "PERs", ∃ s ∈ l, s.entity_group = "PER" ∧ s.word = w) := by
  refine ⟨?_, ?_, ?_⟩ <;> intro w hw
  · rw [bucket_ORGs, List.mem_dedup] at hw
    simp only [orgWords, List.mem_map, List.mem_filter, beq_iff_eq] at hw
    obtain ⟨s, ⟨hs, hg⟩, hword⟩ := hw
    exact ⟨s, hs, hg, hword⟩
  · rw [bucket_LOCs, List.mem_dedup] at hw
    simp only [locWords, List.mem_map, List.mem_filter, beq_iff_eq] at hw
    obtain ⟨s, ⟨hs, hg⟩, hword⟩ := hw
    exact ⟨s, hs, hg, hword⟩
  · rw [bucket_PERs, List.mem_dedup] at hw
    simp only [perWords, List.mem_map, List.mem_filter, beq_iff_eq] at hw
    obtain ⟨s, ⟨hs, hg⟩, hword⟩ := hw
    exact ⟨s, hs, hg, hword⟩

/-- Witness for C1 at a concrete input. -/
theorem c1_grouping_sound_witness :
    ∃ s ∈ [(⟨"ORG", "Acme", 0, 0, 0⟩ : Span)],
      s.entity_group = "ORG" ∧ s.word = "Acme" :=
  (c1_grouping_sound [⟨"ORG", "Acme", 0, 0, 0⟩]).1 "Acme" (by decide)

/-- C2: completeness of grouping — every input span labelled exactly `ORG`,
`LOC` or `PER` has its surface text in the matching bucket. -/
theorem c2_grouping_complete (l : List Span) (s : Span) (hs : s ∈ l) :
    (s.entity_group = "ORG" → s.word ∈ bucket l "ORGs") ∧
    (s.entity_group = "LOC" → s.word ∈ bucket l "LOCs") ∧
    (s.entity_group = "PER" → s.word ∈ bucket l "PERs") := by
  refine ⟨?_, ?_, ?_⟩ <;> intro hg
  · rw [bucket_ORGs, List.mem_dedup]
    simp only [orgWords, List.mem_map, List.mem_filter, beq_iff_eq]
    exact ⟨s, ⟨hs, hg⟩, rfl⟩
  · rw [bucket_LOCs, List.mem_dedup]
    simp only [locWords, List.mem_map, List.mem_filter, beq_iff_eq]
    exact ⟨s, ⟨hs, hg⟩, rfl⟩
  · rw [bucket_PERs, List.mem_dedup]
    simp only [perWords, List.mem_map, List.mem_filter, beq_iff_eq]
    exact ⟨s, ⟨hs, hg⟩, rfl⟩

/-- Witness for C2 at a concrete input. -/
theorem c2_grouping_complete_witness :
    (⟨"PER", "Jane", 0, 0, 0⟩ : Span).word ∈
      bucket [⟨"PER", "Jane", 0, 0, 0⟩] "PERs" :=
  (c2_grouping_complete [⟨"PER", "Jane", 0, 0, 0⟩] ⟨"PER", "Jane", 0, 0, 0⟩
    (by decide)).2.2 rfl

/-- C3: a span whose category is outside {ORG, LOC, PER} contributes its
surface text to no bucket — removing it from the input leaves the grouping
result unchanged. -/
theorem c3_nonrecognized_dropped (l₁ l₂ : List Span) (s : Span)
    (h1 : s.entity_group ≠ "ORG") (h2 : s.entity_group ≠ "LOC")
    (h3 : s.entity_group ≠ "PER") :
    extract_entities (l₁ ++ s :: l₂) = extract_entities (l₁ ++ l₂) := by
  rw [extract_entities_eq, extract_entities_eq]
  simp [orgWords, locWords, perWords, List.filter_cons, h1, h2, h3]

/-- Witness for C3 at a concrete input: a `MISC` span changes nothing. -/
theorem c3_nonrecognized_dropped_witness :
    extract_entities [⟨"ORG", "Acme", 0, 0, 0⟩, ⟨"MISC", "Monday", 0, 0, 0⟩]
      = extract_entities [⟨"ORG", "Acme", 0, 0, 0⟩] :=
  c3_nonrecognized_dropped [⟨"ORG", "Acme", 0, 0, 0⟩] []
    ⟨"MISC", "Monday", 0, 0, 0⟩ (by decide) (by decide) (by decide)

/-- C4: after the deduplication pass, no bucket of the grouping result
contains the same surface text twice. -/
theorem c4_buckets_nodup (l : List Span) :
    (bucket l "ORGs").Nodup ∧ (bucket l "LOCs").Nodup ∧
    (bucket l "PERs").Nodup := by
  rw [bucket_ORGs, bucket_LOCs, bucket_PERs]
  exact ⟨List.nodup_dedup _, List.nodup_dedup _, List.nodup_dedup _⟩

/-- C5: the grouping result always has exactly the keys `ORGs`, `LOCs`,
`PERs` — none missing, none extra (in particular no Dates bucket). -/
theorem c5_exactly_three_keys (l : List Span) :
    (extract_entities l).map Prod.fst = ["ORGs", "LOCs", "PERs"] := by
  rw [extract_entities_eq]
  rfl

/-- One possible result of a single run of the grouping step on `l`:
Python's `list(set(xs))` fixes which elements appear but not their order,
so a run yields the three fixed keys, each bucket holding the distinct
matching surface texts in some order (some permutation of the dedup). -/
def runExtract (l : List Span) (g : List (String × List String)) : Prop :=
  ∃ o p q : List String,
    g = [("ORGs", o), ("LOCs", p), ("PERs", q)] ∧
    o.Perm (orgWords l).dedup ∧ p.Perm (locWords l).dedup ∧
    q.Perm (perWords l).dedup

/-- The buckets of a grouped-entities dict viewed as sets of surface texts. -/
def bucketSets (g : List (String × List String)) :
    List (String × Finset String) :=
  g.map (fun kv => (kv.1, kv.2.toFinset))

/-- C6: grouping is idempotent in the spec's sense — any two runs of the
grouping step on the same tagged-span sequence yield identical bucket sets,
even though the order inside each deduplicated bucket is unspecified. -/
theorem c6_grouping_idempotent (l : List Span)
    (g₁ g₂ : List (String × List String))
    (h₁ : runExtract l g₁) (h₂ : runExtract l g₂) :
    bucketSets g₁ = bucketSets g₂ := by
  obtain ⟨o₁, p₁, q₁, rfl, ho₁, hp₁, hq₁⟩ := h₁
  obtain ⟨o₂, p₂, q₂, rfl, ho₂, hp₂, hq₂⟩ := h₂
  simp only [bucketSets, List.map_cons, List.map_nil]
  rw [List.toFinset_eq_of_perm _ _ (ho₁.trans ho₂.symm),
    List.toFinset_eq_of_perm _ _ (hp₁.trans hp₂.symm),
    List.toFinset_eq_of_perm _ _ (hq₁.trans hq₂.symm)]

/-- Witness for C6: two runs that ordered the `ORGs` bucket differently
still have the same bucket sets. -/
theorem c6_grouping_idempotent_witness :
    bucketSets [("ORGs", ["A", "B"]), ("LOCs", []), ("PERs", [])]
      = bucketSets [("ORGs", ["B", "A"]), ("LOCs", []), ("PERs", [])] :=
  c6_grouping_idempotent [⟨"ORG", "A", 0, 0, 0⟩, ⟨"ORG", "B", 0, 0, 0⟩] _ _
    ⟨["A", "B"], [], [], rfl, by decide, by decide, by decide⟩
    ⟨["B", "A"], [], [], rfl, by decide, by decide, by decide⟩

/-- C7: on the concrete spans [(ORG, Acme), (ORG, Acme), (PER, Jane),
(MISC, Monday)] the grouping step returns the bucket sets
ORGs = {Acme}, LOCs = {}, PERs = {Jane}. -/
theorem c7_concrete_example :
    bucketSets (extract_entities
      [⟨"ORG", "Acme", 0, 0, 0⟩, ⟨"ORG", "Acme", 0, 0, 0⟩,
       ⟨"PER", "Jane", 0, 0, 0⟩, ⟨"MISC", "Monday", 0, 0, 0⟩]) =
      [("ORGs", {"Acme"}), ("LOCs", ∅), ("PERs", {"Jane"})] := by
  decide

/-- The render pass of `main` (lines 97–121), modelled as the sequence of
texts handed to `st.subheader` / `st.write` once the transcript and the
grouped entities are available: the transcript, then per category either a
header plus one bullet line per value, or a fixed placeholder line. -/
def renderOutput (transcript : String)
    (entities : List (String × List String)) : List String :=
  ["Transcription:", transcript, "Extracted Entities:"] ++
  (if bucketOf entities "ORGs" ≠ [] then
     "**Organizations (ORGs):**" ::
       (bucketOf entities "ORGs").map (fun org => "- " ++ org)
   else ["No organizations found."]) ++
  (if bucketOf entities "LOCs" ≠ [] then
     "**Locations (LOCs):**" ::
       (bucketOf entities "LOCs").map (fun loc => "- " ++ loc)
   else ["No locations found."]) ++
  (if bucketOf entities "PERs" ≠ [] then
     "**Persons (PERs):**" ::
       (bucketOf entities "PERs").map (fun per => "- " ++ per)
   else ["No persons found."])

/-- C8: for any three-bucket mapping, the render pass always shows the
transcript, and per category emits the bulleted value list exactly when the
bucket is non-empty and the fixed placeholder exactly when it is empty. -/
theorem c8_render (t : String) (orgs locs pers : List String) :
    renderOutput t [("ORGs", orgs), ("LOCs", locs), ("PERs", pers)] =
      ["Transcription:", t, "Extracted Entities:"] ++
      (if orgs = [] then ["No organizations found."]
       else "**Organizations (ORGs):**" :: orgs.map (fun w => "- " ++ w)) ++
      (if locs = [] then ["No locations found."]
       else "**Locations (LOCs):**" :: locs.map (fun w => "- " ++ w)) ++
      (if pers = [] then ["No persons found."]
       else "**Persons (PERs):**" :: pers.map (fun w => "- " ++ w)) := by
  have ho : bucketOf [("ORGs", orgs), ("LOCs", locs), ("PERs", pers)] "ORGs"
      = orgs := by simp [bucketOf, List.lookup]
  have hl : bucketOf [("ORGs", orgs), ("LOCs", locs), ("PERs", pers)] "LOCs"
      = locs := by simp [bucketOf, List.lookup]
  have hp : bucketOf [("ORGs", orgs), ("LOCs", locs), ("PERs", pers)] "PERs"
      = pers := by simp [bucketOf, List.lookup]
  unfold renderOutput
  rw [ho, hl, hp]
  by_cases h1 : orgs = [] <;> by_cases h2 : locs = [] <;>
    by_cases h3 : pers = [] <;> simp [h1, h2, h3]

/-- Result of the speech-to-text model call: the `text` field that the code
reads, plus the timestamp metadata (`chunks`) that `return_timestamps=True`
asks the model to add. -/
structure TranscriptionResult where
  text : String
  chunks : List (String × Nat × Nat)
  deriving DecidableEq, Repr

/-- `transcribe_audio` from `homework3.py`: the Whisper model is external,
modelled as a function from the uploaded file's bytes and the
`return_timestamps` flag to a `TranscriptionResult`. The code reads the
file, calls the model with `return_timestamps = True`, and returns the
`text` field of the result. -/
def transcribe_audio (whisper_model : List Nat → Bool → TranscriptionResult)
    (uploaded_file : List Nat) : String :=
  (whisper_model uploaded_file true).text

/-- A concrete model that transcribes everything to `hello` and returns no
timestamp chunks. -/
def constModel : List Nat → Bool → TranscriptionResult :=
  fun _f _b => ⟨"hello", []⟩

/-- A concrete model with the same text output as `constModel` but different
timestamp chunks. -/
def constModelTS : List Nat → Bool → TranscriptionResult :=
  fun _f _b => ⟨"hello", [("hello", 0, 1)]⟩

/-- C9: the transcription step returns exactly the `text` field of the model
result; the requested timestamp metadata never influences the returned
value (two model outputs agreeing on `text` give equal transcripts). -/
theorem c9_transcription_text
    (m₁ m₂ : List Nat → Bool → TranscriptionResult) (f₁ f₂ : List Nat)
    (h : (m₁ f₁ true).text = (m₂ f₂ true).text) :
    transcribe_audio m₁ f₁ = (m₁ f₁ true).text ∧
    transcribe_audio m₁ f₁ = transcribe_audio m₂ f₂ :=
  ⟨rfl, h⟩

/-- Witness for C9: two models agreeing on text but not on chunks. -/
theorem c9_transcription_text_witness :
    transcribe_audio constModel [] = (constModel [] true).text ∧
    transcribe_audio constModel [] = transcribe_audio constModelTS [] :=
  c9_transcription_text constModel constModelTS [] [] rfl

/-- The two span fields the grouping loop reads. -/
def spanKey (s : Span) : String × String := (s.entity_group, s.word)

lemma filter_words_congr (g : String) : ∀ {l₁ l₂ : List Span},
    l₁.map spanKey = l₂.map spanKey →
    (l₁.filter (fun s => s.entity_group == g)).map Span.word
      = (l₂.filter (fun s => s.entity_group == g)).map Span.word := by
  intro l₁
  induction l₁ with
  | nil =>
    intro l₂ h
    cases l₂ with
    | nil => rfl
    | cons s t => simp at h
  | cons s t ih =>
    intro l₂ h
    cases l₂ with
    | nil => simp at h
    | cons s' t' =>
      simp only [List.map_cons, List.cons.injEq] at h
      obtain ⟨hk, ht⟩ := h
      have hg : s.entity_group = s'.entity_group := congrArg Prod.fst hk
      have hw : s.word = s'.word := congrArg Prod.snd hk
      have h2 : (s'.entity_group == g) = (s.entity_group == g) := by rw [hg]
      rw [List.filter_cons, List.filter_cons, h2]
      by_cases hb : (s.entity_group == g) = true
      · rw [if_pos hb, if_pos hb]
        simp only [List.map_cons, hw, ih ht]
      · rw [if_neg hb, if_neg hb]
        exact ih ht

/-- C10: the grouping result depends only on each span's `entity_group` and
`word` — two span sequences of equal length agreeing pointwise on those two
fields group identically, whatever their scores or character offsets. -/
theorem c10_depends_only_on_group_and_word (l₁ l₂ : List Span)
    (hlen : l₁.length = l₂.length)
    (hpt : ∀ (i : Nat) (h₁ : i < l₁.length) (h₂ : i < l₂.length),
      (l₁.get ⟨i, h₁⟩).entity_group = (l₂.get ⟨i, h₂⟩).entity_group ∧
      (l₁.get ⟨i, h₁⟩).word = (l₂.get ⟨i, h₂⟩).word) :
    extract_entities l₁ = extract_entities l₂ := by
  have hmap : l₁.map spanKey = l₂.map spanKey := by
    apply List.ext_getElem (by simpa using hlen)
    intro i h₁ h₂
    rw [List.getElem_map, List.getElem_map]
    have hi₁ : i < l₁.length := by simpa using h₁
    have hi₂ : i < l₂.length := by simpa using h₂
    obtain ⟨he, hw⟩ := hpt i hi₁ hi₂
    simp only [spanKey, List.get_eq_getElem] at he hw ⊢
    rw [he, hw]
  rw [extract_entities_eq, extract_entities_eq]
  have ho : orgWords l₁ = orgWords l₂ := filter_words_congr "ORG" hmap
  have hl : locWords l₁ = locWords l₂ := filter_words_congr "LOC" hmap
  have hp : perWords l₁ = perWords l₂ := filter_words_congr "PER" hmap
  rw [ho, hl, hp]

/-- Witness for C10: spans differing only in score and offsets group the
same. -/
theorem c10_depends_only_on_group_and_word_witness :
    extract_entities [⟨"ORG", "Acme", 7, 2, 6⟩]
      = extract_entities [⟨"ORG", "Acme", 0, 0, 0⟩] :=
  c10_depends_only_on_group_and_word
    [⟨"ORG", "Acme", 7, 2, 6⟩] [⟨"ORG", "Acme", 0, 0, 0⟩] rfl
    (by
      intro i h₁ h₂
      match i with
      | 0 => exact ⟨rfl, rfl⟩
      | n + 1 => simp at h₁)
